import Mathlib

/-!
Verification development for the `env` struct-field population library.

The library binds environment variables into the fields of a Go struct,
driven by `env:"NAME[,optional][,default=value]"` struct tags.  The
repository carries two revisions of the binder:

* `EnvFull` below embeds the fuller revision (the one with the nil-pointer
  input check, `os.LookupEnv`-based resolution, strict tag-option policy,
  bool/float support and recursive struct traversal): `Parse`,
  `parseStruct`, `parseTag`, `setField`, `parseSlice`.
* `EnvGo` below embeds `env.go` (the `os.Getenv`-based revision whose
  type switch covers only slice, string and int fields): `Parse`
  (named `ParseGo` here to avoid a clash), `parseTag`, `parseSlice`.

Strings are manipulated through their character lists with explicitly
defined, fully computable helpers that model the Go standard-library
functions used by the source (`strings.Split`, `strings.HasPrefix`,
`strings.SplitN`, `strconv.ParseInt`, `strconv.Atoi`,
`strconv.ParseBool`, `strconv.ParseFloat`, `os.Getenv`, `os.LookupEnv`).
-/

/-- Go `strings.Split s sep` for a single-character separator, on
character lists: `[]` input stands for the empty string, and the result
always has one more group than there are separators. -/
def splitCharsOn (sep : Char) : List Char → List (List Char)
  | [] => [[]]
  | c :: cs =>
    if c = sep then [] :: splitCharsOn sep cs
    else
      match splitCharsOn sep cs with
      | [] => [[c]]
      | g :: gs => (c :: g) :: gs

/-- Go `strings.Split s ","`. -/
def splitComma (s : String) : List String :=
  (splitCharsOn ',' s.data).map String.mk

/-- Go `strings.HasPrefix s p` on character lists. -/
def hasPrefixL : List Char → List Char → Bool
  | _, [] => true
  | [], _ :: _ => false
  | c :: cs, d :: ds => c == d && hasPrefixL cs ds

/-- Go `strings.SplitN s "=" 2`: `none` when `s` has no `'='`, otherwise
the parts before and after the first `'='`. -/
def splitAtFirstEq : List Char → Option (List Char × List Char)
  | [] => none
  | c :: cs =>
    if c = '=' then some ([], cs)
    else (splitAtFirstEq cs).map (fun p => (c :: p.1, p.2))

/-- The declared (reflect) type of a leaf struct field.  `otherT` stands
for any kind with no case in the binder's type switch (map, func,
interface, chan, ...) and carries the Go type's printed name. -/
inductive FieldType where
  | stringT
  | intT
  | boolT
  | floatT
  | sliceT (elem : FieldType)
  | otherT (goName : String)
  deriving DecidableEq, Repr

/-- The Go `Type.String()` rendering used in error messages. -/
def FieldType.goString : FieldType → String
  | .stringT => "string"
  | .intT => "int"
  | .boolT => "bool"
  | .floatT => "float64"
  | .sliceT e => "[]" ++ e.goString
  | .otherT n => n

/-- A runtime field value.  `slice elem elts` models a Go slice of the
given element type (so the empty slice produced by `reflect.MakeSlice`
and the empty slice produced by conversion coincide); `zeroV` is the zero
value of an unparsed type. -/
inductive Value where
  | str (s : String)
  | intV (n : Int)
  | boolV (b : Bool)
  | floatV (lit : String)
  | slice (elem : FieldType) (elts : List Value)
  | zeroV (ty : FieldType)

/-- A struct field as the binder sees it through reflection: its name,
whether it is exported (equivalently, settable through a pointer to the
struct), its raw `env` tag (`none` when the tag is absent), and either a
leaf type with its current value, a struct-typed field with its
sub-fields, or a pointer-to-struct field (`sub = none` models a nil
pointer) whose pointee type prints as `tyName`. -/
inductive StructField where
  | leaf (name : String) (exported : Bool) (tag : Option String) (ty : FieldType) (val : Value)
  | structF (name : String) (exported : Bool) (tag : Option String) (sub : List StructField)
  | ptrStructF (name : String) (exported : Bool) (tag : Option String) (tyName : String)
      (sub : Option (List StructField))

/-- The parsed `env` tag (the source's `Tag` struct). -/
structure Tag where
  Env : String
  Optional : Bool
  Default : String
  deriving DecidableEq, Repr

/-- The process environment: an association table of set variables.  A
key that is absent from the table is an unset variable; a key mapped to
`""` is set to the empty string. -/
abbrev EnvTable := List (String × String)

/-- Go `os.LookupEnv`. -/
def lookupEnv (env : EnvTable) (k : String) : Option String :=
  (env.find? (fun p => p.1 == k)).map (fun p => p.2)

/-- Go `os.Getenv` (empty string when unset). -/
def getenv (env : EnvTable) (k : String) : String :=
  (lookupEnv env k).getD ""

/-- The message of a Go `strconv.NumError`, e.g.
`strconv.Atoi: parsing "x": invalid syntax`. -/
def strconvErr (fn s reason : String) : String :=
  "strconv." ++ fn ++ ": parsing \"" ++ s ++ "\": " ++ reason

/-- Base-10 digit-string accumulator: `none` on any non-digit. -/
def decVal : List Char → Nat → Option Nat
  | [], acc => some acc
  | c :: cs, acc => if c.isDigit then decVal cs (acc * 10 + (c.toNat - 48)) else none

/-- Go `strconv.ParseInt(s, 10, 64)`, which is also `strconv.Atoi s` on a
64-bit platform: optional sign, at least one base-10 digit, nothing
else, with the int64 range check; the error string is the `NumError`
reason. -/
def parseInt64 (s : String) : Except String Int :=
  match s.data with
  | [] => .error "invalid syntax"
  | c :: cs =>
    let signed : Bool × List Char :=
      if c = '-' then (true, cs) else if c = '+' then (false, cs) else (false, c :: cs)
    match signed.2 with
    | [] => .error "invalid syntax"
    | ds =>
      match decVal ds 0 with
      | none => .error "invalid syntax"
      | some m =>
        if signed.1 then
          if m ≤ 2 ^ 63 then .ok (-(m : Int)) else .error "value out of range"
        else
          if m ≤ 2 ^ 63 - 1 then .ok ((m : Int)) else .error "value out of range"

/-- Go `strconv.ParseBool`: exactly the twelve literals it recognizes. -/
def parseBool : String → Option Bool
  | "1" => some true
  | "t" => some true
  | "T" => some true
  | "TRUE" => some true
  | "true" => some true
  | "True" => some true
  | "0" => some false
  | "f" => some false
  | "F" => some false
  | "FALSE" => some false
  | "false" => some false
  | "False" => some false
  | _ => none

/-- Mantissa of a decimal float literal: digits with at most one dot and
at least one digit. -/
def mantOk (l : List Char) : Bool :=
  let a := l.takeWhile (fun c => c != '.')
  match l.dropWhile (fun c => c != '.') with
  | [] => a ≠ [] && a.all Char.isDigit
  | _ :: b => (a ≠ [] || b ≠ []) && a.all Char.isDigit && b.all Char.isDigit

/-- Acceptance predicate of Go `strconv.ParseFloat(s, 64)`, modelled on
its decimal and inf/nan forms (the hexadecimal-float form is omitted; no
theorem below depends on float parsing).  The bound value itself is
modelled symbolically as the accepted literal. -/
def floatOk (s : String) : Bool :=
  match s.data with
  | [] => false
  | c :: cs =>
    let l := if c = '+' || c = '-' then cs else c :: cs
    let low := l.map Char.toLower
    if low = "inf".data || low = "infinity".data || low = "nan".data then true
    else
      let mant := l.takeWhile (fun c => c != 'e' && c != 'E')
      let expOk :=
        match l.dropWhile (fun c => c != 'e' && c != 'E') with
        | [] => true
        | _ :: ecs =>
          let ds := match ecs with
            | d :: ds' => if d = '+' || d = '-' then ds' else d :: ds'
            | [] => []
          ds ≠ [] && ds.all Char.isDigit
      mantOk mant && expOk

namespace EnvFull

/-- The option loop of this revision's `parseTag` (`for _, part := range
parts[1:]`): `optional` sets the flag, bare `default` and `default=` with
an empty literal are rejected, `default=<literal>` records the literal
(the last occurrence wins), and any other token is rejected as an
unknown option. -/
def parseTagOpts : List String → Bool → String → Except String (Bool × String)
  | [], opt, dflt => .ok (opt, dflt)
  | p :: rest, opt, dflt =>
    if p = "optional" then parseTagOpts rest true dflt
    else if p = "default" then .error "default tag must have a value"
    else if hasPrefixL p.data ("default=".data) then
      if p.data.length ≤ 8 then .error "default tag must have a value"
      else parseTagOpts rest opt (String.mk (p.data.drop 8))
    else .error ("unknown tag option: " ++ p)

/-- This revision's `parseTag`: absent tag reports "no annotation",
an empty tag and an empty name are errors, then the option loop runs on
the segments after the name. -/
def parseTag (tag : Option String) : Except String (Option Tag) :=
  match tag with
  | none => .ok none
  | some envTag =>
    if envTag = "" then .error "env tag must not be empty"
    else
      let parts := splitComma envTag
      if parts.headD "" = "" then .error "env tag must have a name"
      else
        match parseTagOpts parts.tail false "" with
        | .error e => .error e
        | .ok od => .ok (some { Env := parts.headD "", Optional := od.1, Default := od.2 })

/-- The element loop of this revision's `parseSlice` for `[]int`: each
element goes through `strconv.Atoi`, and the first failure aborts with a
message naming the offending element. -/
def atoiList : List String → Except String (List Int)
  | [] => .ok []
  | el :: rest =>
    match parseInt64 el with
    | .error r => .error ("cannot parse " ++ el ++ " as int: " ++ strconvErr "Atoi" el r)
    | .ok k =>
      match atoiList rest with
      | .error e => .error e
      | .ok ks => .ok (k :: ks)

/-- This revision's `parseSlice`: an empty resolved string yields the
empty slice of the element type (before the element-kind switch), a
non-empty string is comma-split and converted per element, and element
kinds other than string and int are unsupported. -/
def parseSlice (value : String) (elem : FieldType) : Except String Value :=
  if value = "" then .ok (.slice elem [])
  else
    let elements := splitComma value
    match elem with
    | .stringT => .ok (.slice .stringT (elements.map Value.str))
    | .intT =>
      match atoiList elements with
      | .error e => .error e
      | .ok ks => .ok (.slice .intT (ks.map Value.intV))
    | e => .error ("unsupported slice element type " ++ e.goString)

/-- This revision's `setField`: the type-conversion dispatch from the
resolved string to the field's declared kind. -/
def setField (canSet : Bool) (ty : FieldType) (value : String) : Except String Value :=
  if canSet = false then .error "cannot set field value"
  else
    match ty with
    | .stringT => .ok (.str value)
    | .intT =>
      match parseInt64 value with
      | .error r => .error ("cannot parse " ++ value ++ " as int: " ++ strconvErr "ParseInt" value r)
      | .ok k => .ok (.intV k)
    | .boolT =>
      match parseBool value with
      | none => .error ("cannot parse " ++ value ++ " as bool: " ++ strconvErr "ParseBool" value "invalid syntax")
      | some b => .ok (.boolV b)
    | .floatT =>
      if floatOk value then .ok (.floatV value)
      else .error ("cannot parse " ++ value ++ " as float: " ++ strconvErr "ParseFloat" value "invalid syntax")
    | .sliceT e => parseSlice value e
    | .otherT tn => .error ("unsupported field type " ++ tn)

/-- Result of processing one annotated leaf field: skip it, set it to a
converted value, or abort the bind with an error. -/
inductive Outcome where
  | skip
  | setTo (v : Value)
  | fail (e : String)

/-- The leaf branch of this revision's `parseStruct` loop body: skip
unexported fields, parse the tag (a tag error aborts), skip untagged
fields, then resolve via `os.LookupEnv` — a set variable (even set to
the empty string) is used as-is, an unset one falls back to skipping
when optional, to the default literal when one is present, and otherwise
aborts as a missing required variable; the resolved string then goes
through `setField`. -/
def fieldOutcome (env : EnvTable) (n : String) (ex : Bool) (tg : Option String)
    (ty : FieldType) : Outcome :=
  if ex = false then .skip
  else
    match parseTag tg with
    | .error e => .fail ("invalid tag format for field " ++ n ++ ": " ++ e)
    | .ok none => .skip
    | .ok (some t) =>
      match lookupEnv env t.Env with
      | some value =>
        match setField ex ty value with
        | .error e => .fail ("failed to set field " ++ n ++ ": " ++ e)
        | .ok v2 => .setTo v2
      | none =>
        if t.Optional then .skip
        else if t.Default ≠ "" then
          match setField ex ty t.Default with
          | .error e => .fail ("failed to set field " ++ n ++ ": " ++ e)
          | .ok v2 => .setTo v2
        else .fail ("required environment variable " ++ t.Env ++ " not set")

/-- This revision's `parseStruct`: fields are processed in declaration
order; exported struct-typed fields and non-nil pointer-to-struct fields
are recursively bound (their tag, if any, is ignored), a nil
pointer-to-struct field falls through to the leaf path where its pointer
kind hits the unsupported-type case of `setField`, and leaf fields go
through `fieldOutcome`.  The returned list is the struct after the call
(mutation happens in place, so fields already set before an error keep
their new values), paired with the error if any. -/
def parseStruct (env : EnvTable) : List StructField → List StructField × Option String
  | [] => ([], none)
  | .structF n ex tg sub :: rest =>
    if ex = false then
      let r := parseStruct env rest
      (.structF n ex tg sub :: r.1, r.2)
    else
      match parseStruct env sub with
      | (sub2, some e) => (.structF n ex tg sub2 :: rest, some e)
      | (sub2, none) =>
        let r := parseStruct env rest
        (.structF n ex tg sub2 :: r.1, r.2)
  | .ptrStructF n ex tg tyName (some sub) :: rest =>
    if ex = false then
      let r := parseStruct env rest
      (.ptrStructF n ex tg tyName (some sub) :: r.1, r.2)
    else
      match parseStruct env sub with
      | (sub2, some e) => (.ptrStructF n ex tg tyName (some sub2) :: rest, some e)
      | (sub2, none) =>
        let r := parseStruct env rest
        (.ptrStructF n ex tg tyName (some sub2) :: r.1, r.2)
  | .ptrStructF n ex tg tyName none :: rest =>
    match fieldOutcome env n ex tg (.otherT ("*" ++ tyName)) with
    | .skip => let r := parseStruct env rest; (.ptrStructF n ex tg tyName none :: r.1, r.2)
    | .setTo _ => let r := parseStruct env rest; (.ptrStructF n ex tg tyName none :: r.1, r.2)
    | .fail e => (.ptrStructF n ex tg tyName none :: rest, some e)
  | .leaf n ex tg ty v :: rest =>
    match fieldOutcome env n ex tg ty with
    | .skip => let r := parseStruct env rest; (.leaf n ex tg ty v :: r.1, r.2)
    | .setTo v2 => let r := parseStruct env rest; (.leaf n ex tg ty v2 :: r.1, r.2)
    | .fail e => (.leaf n ex tg ty v :: rest, some e)

/-- The pointee of the `any` value handed to `Parse`, as reflection
classifies it. -/
inductive PtrTarget where
  | record (fields : List StructField)
  | nonStruct

/-- The `any` value handed to `Parse`: Go `nil` (invalid kind), a
non-pointer value, a typed nil pointer, or a non-nil pointer. -/
inductive Input where
  | nilAny
  | nonPtr
  | ptrNil
  | ptrTo (t : PtrTarget)

/-- This revision's `Parse`: reject anything that is not a non-nil
pointer, then run `parseStruct` on the pointee (which itself rejects
non-struct pointees).  The result pairs the input after the call (the
pointee is mutated in place) with the error if any. -/
def Parse (env : EnvTable) (v : Input) : Input × Option String :=
  match v with
  | .nilAny => (.nilAny, some "input must be a non-nil pointer")
  | .nonPtr => (.nonPtr, some "input must be a non-nil pointer")
  | .ptrNil => (.ptrNil, some "input must be a non-nil pointer")
  | .ptrTo .nonStruct => (.ptrTo .nonStruct, some "value must be a struct")
  | .ptrTo (.record fs) =>
    match parseStruct env fs with
    | (fs2, e) => (.ptrTo (.record fs2), e)

end EnvFull

namespace EnvGo

/-- The option loop of `env.go`'s `parseTag`: `optional` sets the flag,
a token with string prefix `default` must contain an `'='` (its text
after the first `'='` becomes the default, so the last such token wins),
and any other token is silently ignored (the loose policy of this
revision). -/
def parseTagOpts : List String → Bool → String → Except String (Bool × String)
  | [], opt, dflt => .ok (opt, dflt)
  | p :: rest, opt, dflt =>
    if p = "optional" then parseTagOpts rest true dflt
    else if hasPrefixL p.data ("default".data) then
      match splitAtFirstEq p.data with
      | none =>
        .error ("invalid use of default in tag 'env', expected 'default=value', found '" ++ p ++ "'")
      | some pr => parseTagOpts rest opt (String.mk pr.2)
    else parseTagOpts rest opt dflt

/-- `env.go`'s `parseTag`: absent tag reports "no annotation", an empty
first comma-separated segment is an error (which also covers the empty
tag), then the option loop runs on the remaining segments. -/
def parseTag (tag : Option String) : Except String (Option Tag) :=
  match tag with
  | none => .ok none
  | some raw =>
    let parts := splitComma raw
    if parts.headD "" = "" then .error ("empty tag 'env'")
    else
      match parseTagOpts parts.tail false "" with
      | .error e => .error e
      | .ok od => .ok (some { Env := parts.headD "", Optional := od.1, Default := od.2 })

/-- The element loop of `env.go`'s `parseSlice` for `[]int`: each element
goes through `strconv.Atoi`, and the first failure aborts with the
wrapping message of this revision. -/
def atoiList : List String → Except String (List Int)
  | [] => .ok []
  | el :: rest =>
    match parseInt64 el with
    | .error r => .error ("error parsing int slice : " ++ strconvErr "Atoi" el r)
    | .ok k =>
      match atoiList rest with
      | .error e => .error e
      | .ok ks => .ok (k :: ks)

/-- `env.go`'s `parseSlice`: the resolved string is comma-split with no
special case for the empty string (so `""` splits into `[""]`), string
elements are used verbatim, int elements go through `strconv.Atoi`, and
any other element kind is unsupported. -/
def parseSlice (value : String) (elem : FieldType) : Except String Value :=
  match elem with
  | .stringT => .ok (.slice .stringT ((splitComma value).map Value.str))
  | .intT =>
    match atoiList (splitComma value) with
    | .error e => .error e
    | .ok ks => .ok (.slice .intT (ks.map Value.intV))
  | e => .error ("unsupported slice type '" ++ e.goString ++ "'")

/-- Result of `env.go`'s loop body on one field: skip it, set it, or
abort the whole parse. -/
inductive OutcomeGo where
  | skip
  | setTo (v : Value)
  | fail (e : String)

/-- The body of `env.go`'s field loop: skip unsettable fields, parse the
tag (a tag error aborts), skip untagged fields, resolve via `os.Getenv`
with the empty-string fallback to the default literal, fail when the
resolved value is still empty and the field is not optional, then switch
on the field's kind — slice, string and int fields are converted and
set, and every other kind (bool, float, struct, pointer, map, ...) falls
out of the switch and is silently left unassigned.  `ty?` is `none` for
the struct-kind and pointer-kind fields, which have no case in the
switch. -/
def goFieldStep (env : EnvTable) (n : String) (ex : Bool) (tg : Option String)
    (ty? : Option FieldType) : OutcomeGo :=
  if ex = false then .skip
  else
    match parseTag tg with
    | .error e => .fail ("error parsing field '" ++ n ++ "' : " ++ e)
    | .ok none => .skip
    | .ok (some t) =>
      let v0 := getenv env t.Env
      let value := if v0 = "" then t.Default else v0
      if value = "" ∧ t.Optional = false then .fail ("missing required env : " ++ t.Env)
      else
        match ty? with
        | some (.sliceT e) =>
          match parseSlice value e with
          | .error er => .fail ("error parsing slice field '" ++ n ++ "' : " ++ er)
          | .ok v2 => .setTo v2
        | some .stringT => .setTo (.str value)
        | some .intT =>
          match parseInt64 value with
          | .error r =>
            .fail ("error parsing int field '" ++ n ++ "' : " ++ strconvErr "ParseInt" value r)
          | .ok k => .setTo (.intV k)
        | _ => .skip

/-- The reflection metadata `env.go`'s loop reads off a field: name,
settability, raw tag, and the leaf kind when the field's kind has a
chance of being in the type switch (`none` for struct-kind and
pointer-kind fields). -/
def fieldMeta : StructField → String × Bool × Option String × Option FieldType
  | .leaf n ex tg ty _ => (n, ex, tg, some ty)
  | .structF n ex tg _ => (n, ex, tg, none)
  | .ptrStructF n ex tg _ _ => (n, ex, tg, none)

/-- In-place update of a leaf field's value (identity on struct-kind and
pointer-kind fields, which the type switch never sets). -/
def setVal : StructField → Value → StructField
  | .leaf n ex tg ty _, v => .leaf n ex tg ty v
  | f, _ => f

/-- `env.go`'s `Parse`, run on the field list of the target struct (this
revision performs no input validation and no recursion into sub-structs:
every field, of whatever kind, goes through the same loop body).  The
returned list is the struct after the call, paired with the error if
any. -/
def ParseGo (env : EnvTable) : List StructField → List StructField × Option String
  | [] => ([], none)
  | f :: rest =>
    match goFieldStep env (fieldMeta f).1 (fieldMeta f).2.1 (fieldMeta f).2.2.1
        (fieldMeta f).2.2.2 with
    | .skip =>
      let r := ParseGo env rest
      (f :: r.1, r.2)
    | .setTo v2 =>
      let r := ParseGo env rest
      (setVal f v2 :: r.1, r.2)
    | .fail e => (f :: rest, some e)

end EnvGo

/-- The leaf types with no case in the fuller revision's conversion
dispatch: every non-slice kind outside string/int/bool/float, and slices
whose element kind is neither string nor int. -/
def FieldType.noConversion : FieldType → Bool
  | .otherT _ => true
  | .sliceT .stringT => false
  | .sliceT .intT => false
  | .sliceT _ => true
  | _ => false

/-- Whether `strconv.Atoi` fails on the given element. -/
def intParseFails (el : String) : Bool :=
  match parseInt64 el with
  | .ok _ => false
  | .error _ => true

/-- The annotation option tokens the fuller revision's `parseTag`
accepts: `optional`, or `default=<literal>` with a non-empty literal. -/
def validOptB (p : String) : Bool :=
  p == "optional" || (hasPrefixL p.data ("default=".data) && decide (8 < p.data.length))

/-- The predicate of the default-recording branch of `parseTag`'s
option loop. -/
def isDefaultOpt (p : String) : Bool :=
  hasPrefixL p.data ("default=".data)

section Claims

open EnvFull in
/-- Claim C1: for a field whose annotation carries any default literal,
when the field's environment variable is set to a value `y` — including
`y = ""` — the binder converts and assigns `y`: the whole outcome of the
field is determined by `y` alone (the conclusion mentions only `y`, not
`t.Default`), so a present environment value strictly wins over the
default and only an unset variable can trigger the default/optional
fallback. -/
theorem c1_env_value_wins (env : EnvTable) (n : String) (tg : Option String)
    (ty : FieldType) (v : Value) (rest : List StructField) (t : Tag) (y : String)
    (hT : parseTag tg = .ok (some t)) (hE : lookupEnv env t.Env = some y) :
    parseStruct env (.leaf n true tg ty v :: rest) =
      match setField true ty y with
      | .ok v2 => ((.leaf n true tg ty v2) :: (parseStruct env rest).1, (parseStruct env rest).2)
      | .error e => (.leaf n true tg ty v :: rest,
          some ("failed to set field " ++ n ++ ": " ++ e)) := by
  have hstep : fieldOutcome env n true tg ty =
      match setField true ty y with
      | .ok v2 => Outcome.setTo v2
      | .error e => Outcome.fail ("failed to set field " ++ n ++ ": " ++ e) := by
    unfold fieldOutcome
    simp only [hT, hE]
    cases setField true ty y <;> rfl
  rw [parseStruct, hstep]
  cases h : setField true ty y <;> simp

/-- Witness for C1: the variable is set to the empty string while the
annotation declares `default=xyz`; the bound value is the empty string,
not `xyz`. -/
theorem c1_env_value_wins_witness :
    EnvFull.parseTag (some "NAME,default=xyz") = .ok (some ⟨"NAME", false, "xyz"⟩) ∧
    lookupEnv [("NAME", "")] "NAME" = some "" ∧
    EnvFull.parseStruct [("NAME", "")]
        [.leaf "F" true (some "NAME,default=xyz") .stringT (.str "init")] =
      ([.leaf "F" true (some "NAME,default=xyz") .stringT (.str "")], none) :=
  ⟨rfl, rfl, by
    have h := c1_env_value_wins [("NAME", "")] "F" (some "NAME,default=xyz") .stringT
      (.str "init") [] ⟨"NAME", false, "xyz"⟩ "" rfl rfl
    rw [h]
    simp [EnvFull.parseStruct]
    rfl⟩

open EnvFull in
/-- Claim C2: `Parse` rejects every input that is not a non-nil pointer
to a struct — Go `nil`, a non-pointer value, a typed nil pointer, or a
pointer to a non-struct — with an error, and leaves the input
unmutated. -/
theorem c2_invalid_input_error (env : EnvTable) (v : Input)
    (h : ∀ fs, v ≠ .ptrTo (.record fs)) :
    (Parse env v).1 = v ∧ (Parse env v).2.isSome = true := by
  cases v with
  | nilAny => exact ⟨rfl, rfl⟩
  | nonPtr => exact ⟨rfl, rfl⟩
  | ptrNil => exact ⟨rfl, rfl⟩
  | ptrTo t =>
    cases t with
    | nonStruct => exact ⟨rfl, rfl⟩
    | record fs => exact absurd rfl (h fs)

/-- Witness for C2: `Parse` on Go `nil` errors without mutating
anything. -/
theorem c2_invalid_input_error_witness :
    (∀ fs, EnvFull.Input.nilAny ≠ .ptrTo (.record fs)) ∧
    (EnvFull.Parse [] .nilAny).1 = .nilAny ∧
    (EnvFull.Parse [] .nilAny).2.isSome = true :=
  ⟨(fun _ h => by cases h), c2_invalid_input_error [] .nilAny (fun _ h => by cases h)⟩

open EnvFull in
/-- Claim C3: when every field of the record is an exported leaf whose
annotation parses with the `optional` flag and no default, and whose
variable is unset, `Parse` succeeds and returns the record completely
unchanged — each field retains its (zero) value, whatever its declared
type. -/
theorem c3_optional_unset_zero (env : EnvTable) (fields : List StructField)
    (h : ∀ f ∈ fields, ∃ n tg ty v t, f = StructField.leaf n true tg ty v ∧
      parseTag tg = .ok (some t) ∧ t.Optional = true ∧ t.Default = "" ∧
      lookupEnv env t.Env = none) :
    Parse env (.ptrTo (.record fields)) = (.ptrTo (.record fields), none) := by
  have key : parseStruct env fields = (fields, none) := by
    induction fields with
    | nil => rw [parseStruct]
    | cons f rest ih =>
      obtain ⟨n, tg, ty, v, t, rfl, hT, hO, _, hL⟩ := h f (by simp)
      have hstep : fieldOutcome env n true tg ty = .skip := by
        unfold fieldOutcome
        simp only [hT, hL, hO]
        rfl
      rw [parseStruct, hstep, ih (fun g hg => h g (by simp [hg]))]
  rw [Parse, key]

/-- Witness for C3: a record with an optional string field and an
optional int field, both unset, binds successfully and unchanged. -/
theorem c3_optional_unset_zero_witness :
    (∀ f ∈ [StructField.leaf "S" true (some "A,optional") .stringT (.str ""),
            StructField.leaf "I" true (some "B,optional") .intT (.intV 0)],
      ∃ n tg ty v t, f = StructField.leaf n true tg ty v ∧
        EnvFull.parseTag tg = .ok (some t) ∧ t.Optional = true ∧ t.Default = "" ∧
        lookupEnv [("C", "7")] t.Env = none) ∧
    EnvFull.Parse [("C", "7")]
        (.ptrTo (.record [StructField.leaf "S" true (some "A,optional") .stringT (.str ""),
                          StructField.leaf "I" true (some "B,optional") .intT (.intV 0)])) =
      (.ptrTo (.record [StructField.leaf "S" true (some "A,optional") .stringT (.str ""),
                        StructField.leaf "I" true (some "B,optional") .intT (.intV 0)]), none) := by
  have hyp : ∀ f ∈ [StructField.leaf "S" true (some "A,optional") .stringT (.str ""),
      StructField.leaf "I" true (some "B,optional") .intT (.intV 0)],
      ∃ n tg ty v t, f = StructField.leaf n true tg ty v ∧
        EnvFull.parseTag tg = .ok (some t) ∧ t.Optional = true ∧ t.Default = "" ∧
        lookupEnv [("C", "7")] t.Env = none := by
    intro f hf
    simp only [List.mem_cons, List.not_mem_nil, or_false] at hf
    rcases hf with rfl | rfl
    · exact ⟨"S", some "A,optional", .stringT, .str "", ⟨"A", true, ""⟩, rfl, rfl, rfl, rfl, rfl⟩
    · exact ⟨"I", some "B,optional", .intT, .intV 0, ⟨"B", true, ""⟩, rfl, rfl, rfl, rfl, rfl⟩
  exact ⟨hyp, c3_optional_unset_zero _ _ hyp⟩

open EnvFull in
/-- Claim C4: for an annotated boolean field whose variable is set to
`s`, the binder parses `s` with the standard boolean-literal parser:
a recognized literal is assigned to the field, an unrecognized token
makes the bind fail with a conversion error, and in particular the field
is never silently left unassigned; moreover `true`/`false`/`1`/`0` are
among the recognized literals. -/
theorem c4_bool_conversion (env : EnvTable) (n : String) (tg : Option String)
    (v : Value) (rest : List StructField) (t : Tag) (s : String)
    (hT : parseTag tg = .ok (some t)) (hE : lookupEnv env t.Env = some s) :
    parseStruct env (.leaf n true tg .boolT v :: rest) =
      (match parseBool s with
       | some b => ((.leaf n true tg .boolT (.boolV b)) :: (parseStruct env rest).1,
           (parseStruct env rest).2)
       | none => (.leaf n true tg .boolT v :: rest,
           some ("failed to set field " ++ n ++ ": " ++ ("cannot parse " ++ s ++ " as bool: "
             ++ strconvErr "ParseBool" s "invalid syntax")))) ∧
      parseBool "true" = some true ∧ parseBool "false" = some false ∧
      parseBool "1" = some true ∧ parseBool "0" = some false := by
  refine ⟨?_, rfl, rfl, rfl, rfl⟩
  have hstep : fieldOutcome env n true tg .boolT =
      match parseBool s with
      | some b => Outcome.setTo (.boolV b)
      | none => Outcome.fail ("failed to set field " ++ n ++ ": " ++ ("cannot parse " ++ s
          ++ " as bool: " ++ strconvErr "ParseBool" s "invalid syntax")) := by
    unfold fieldOutcome
    simp only [hT, hE]
    unfold setField
    cases parseBool s <;> rfl
  rw [parseStruct, hstep]
  cases h : parseBool s <;> simp

/-- Witness for C4: a boolean field bound from `"true"` becomes `true`. -/
theorem c4_bool_conversion_witness :
    EnvFull.parseTag (some "D") = .ok (some ⟨"D", false, ""⟩) ∧
    lookupEnv [("D", "true")] "D" = some "true" ∧
    EnvFull.parseStruct [("D", "true")]
        [.leaf "Debug" true (some "D") .boolT (.boolV false)] =
      ([.leaf "Debug" true (some "D") .boolT (.boolV true)], none) :=
  ⟨rfl, rfl, by
    have h := (c4_bool_conversion [("D", "true")] "Debug" (some "D") (.boolV false) []
      ⟨"D", false, ""⟩ "true" rfl rfl).1
    rw [h]
    simp [EnvFull.parseStruct]
    rfl⟩

end Claims

/-- Claim C5 counterexample: a record whose only annotated field is a
`[]float64` — a slice of an element type with no defined conversion —
binds successfully when its variable is set to the empty string: the
empty-string special case of `parseSlice` returns the empty slice before
the element-kind switch, so no UnsupportedType error is raised, refuting
the claim as stated. -/
theorem c5_unsupported_type_counterexample :
    EnvFull.Parse [("V", "")]
      (.ptrTo (.record [.leaf "F" true (some "V") (.sliceT .floatT) (.slice .floatT [])])) =
    (.ptrTo (.record [.leaf "F" true (some "V") (.sliceT .floatT) (.slice .floatT [])]), none) := by
  simp [EnvFull.Parse, EnvFull.parseStruct, EnvFull.fieldOutcome]
  exact ⟨rfl, rfl⟩

open EnvFull in
/-- Claim C5 (amended): for an annotated field whose declared type has no
defined conversion, whenever a value is resolved for the field — either
from a set environment variable, with the resolved string non-empty in
the slice case, or from the non-empty default literal of a non-optional
field whose variable is unset — the bind fails with an unsupported-type
error and the record is left unchanged.  (The amendment carves out
exactly what the counterexample forces: the slice case whose resolved
string is empty, where the code assigns an empty sequence without
checking the element type — only reachable from a set variable, since
the default path requires a non-empty literal — and the
no-resolved-value case, where the field is skipped.) -/
theorem c5_unsupported_type_amended (env : EnvTable) (n : String) (tg : Option String)
    (ty : FieldType) (v : Value) (rest : List StructField) (t : Tag)
    (hT : parseTag tg = .ok (some t))
    (hU : ty.noConversion = true)
    (hres : (∃ s, lookupEnv env t.Env = some s ∧ ∀ e, ty = FieldType.sliceT e → s ≠ "")
      ∨ (lookupEnv env t.Env = none ∧ t.Optional = false ∧ t.Default ≠ "")) :
    ∃ msg, parseStruct env (.leaf n true tg ty v :: rest) =
      (.leaf n true tg ty v :: rest, some msg) := by
  have hset : ∀ s : String, (∀ e, ty = FieldType.sliceT e → s ≠ "") →
      ∃ err, setField true ty s = .error err := by
    intro s hS
    cases ty with
    | stringT => simp [FieldType.noConversion] at hU
    | intT => simp [FieldType.noConversion] at hU
    | boolT => simp [FieldType.noConversion] at hU
    | floatT => simp [FieldType.noConversion] at hU
    | otherT tn => exact ⟨_, rfl⟩
    | sliceT e =>
      have hs : s ≠ "" := hS e rfl
      cases e with
      | stringT => simp [FieldType.noConversion] at hU
      | intT => simp [FieldType.noConversion] at hU
      | boolT =>
        exact ⟨"unsupported slice element type " ++ FieldType.goString .boolT,
          by simp [setField, parseSlice, hs]⟩
      | floatT =>
        exact ⟨"unsupported slice element type " ++ FieldType.goString .floatT,
          by simp [setField, parseSlice, hs]⟩
      | sliceT e2 =>
        exact ⟨"unsupported slice element type " ++ FieldType.goString (.sliceT e2),
          by simp [setField, parseSlice, hs]⟩
      | otherT tn =>
        exact ⟨"unsupported slice element type " ++ FieldType.goString (.otherT tn),
          by simp [setField, parseSlice, hs]⟩
  rcases hres with ⟨s, hE, hS⟩ | ⟨hE, hOpt, hD⟩
  · obtain ⟨err, herr⟩ := hset s hS
    have hstep : fieldOutcome env n true tg ty =
        .fail ("failed to set field " ++ n ++ ": " ++ err) := by
      unfold fieldOutcome
      simp only [hT, hE, herr]
      rfl
    refine ⟨"failed to set field " ++ n ++ ": " ++ err, ?_⟩
    rw [parseStruct, hstep]
  · obtain ⟨err, herr⟩ := hset t.Default (fun _ _ => hD)
    have hstep : fieldOutcome env n true tg ty =
        .fail ("failed to set field " ++ n ++ ": " ++ err) := by
      unfold fieldOutcome
      simp only [hT, hE, hOpt, herr]
      rw [if_pos hD]
      rfl
    refine ⟨"failed to set field " ++ n ++ ": " ++ err, ?_⟩
    rw [parseStruct, hstep]

/-- Witness for the amended C5: a `[]float64` field with a non-empty
default literal and its variable unset fails the bind — the very type
that succeeds in the counterexample when its variable is set to the
empty string. -/
theorem c5_unsupported_type_amended_witness :
    EnvFull.parseTag (some "V,default=x") = .ok (some ⟨"V", false, "x"⟩) ∧
    (FieldType.sliceT .floatT).noConversion = true ∧
    lookupEnv [] "V" = none ∧ (⟨"V", false, "x"⟩ : Tag).Optional = false ∧
    (⟨"V", false, "x"⟩ : Tag).Default ≠ "" ∧
    (∃ msg, EnvFull.parseStruct []
        [.leaf "F" true (some "V,default=x") (.sliceT .floatT) (.slice .floatT [])] =
      ([.leaf "F" true (some "V,default=x") (.sliceT .floatT) (.slice .floatT [])],
        some msg)) :=
  ⟨rfl, rfl, rfl, rfl, (by decide),
    c5_unsupported_type_amended [] "F" (some "V,default=x") (.sliceT .floatT)
      (.slice .floatT []) [] ⟨"V", false, "x"⟩ rfl rfl
      (Or.inr ⟨rfl, rfl, (by decide)⟩)⟩

open EnvFull in
/-- Every option segment a successful run of the tag-option loop has
consumed is either `optional` or `default=<literal>` with a non-empty
literal. -/
theorem parseTagOptsOkValid (l : List String) (o : Bool) (d : String)
    (r : Bool × String) (h : parseTagOpts l o d = .ok r) :
    ∀ p ∈ l, p = "optional" ∨
      (hasPrefixL p.data ("default=".data) = true ∧ ¬ p.data.length ≤ 8) := by
  induction l generalizing o d with
  | nil => intro p hp; simp at hp
  | cons q rest ih =>
    intro p hp
    rw [parseTagOpts] at h
    by_cases h1 : q = "optional"
    · rw [if_pos h1] at h
      rcases List.mem_cons.mp hp with rfl | hm
      · exact Or.inl h1
      · exact ih _ _ h p hm
    · rw [if_neg h1] at h
      by_cases h2 : q = "default"
      · rw [if_pos h2] at h; cases h
      · rw [if_neg h2] at h
        by_cases h3 : hasPrefixL q.data ("default=".data) = true
        · rw [if_pos h3] at h
          by_cases h4 : q.data.length ≤ 8
          · rw [if_pos h4] at h; cases h
          · rw [if_neg h4] at h
            rcases List.mem_cons.mp hp with rfl | hm
            · exact Or.inr ⟨h3, h4⟩
            · exact ih _ _ h p hm
        · rw [if_neg h3] at h; cases h

open EnvFull in
/-- Claim C6: an annotation containing an option segment that is neither
`optional` nor a `default=`-prefixed token makes the bind of any record
containing the field fail with a tag-format error, and the same error is
produced for every environment table — tag validation is independent of
whether the named variable is set. -/
theorem c6_unknown_option_error (n raw name : String) (opts : List String) (p : String)
    (ty : FieldType) (v : Value) (rest : List StructField)
    (hsplit : splitComma raw = name :: opts)
    (hname : name ≠ "")
    (hp : p ∈ opts)
    (hopt : p ≠ "optional")
    (hpre : hasPrefixL p.data ("default=".data) = false) :
    ∃ msg, ∀ env, parseStruct env (.leaf n true (some raw) ty v :: rest) =
      (.leaf n true (some raw) ty v :: rest, some msg) := by
  have hraw : raw ≠ "" := by
    intro h
    subst h
    rw [show splitComma "" = [""] from rfl] at hsplit
    cases hsplit
    exact hname rfl
  obtain ⟨e, he⟩ : ∃ e, parseTagOpts opts false "" = .error e := by
    cases h : parseTagOpts opts false "" with
    | ok r =>
      rcases parseTagOptsOkValid opts false "" r h p hp with h1 | h2
      · exact absurd h1 hopt
      · rw [hpre] at h2; exact absurd h2.1 (by simp)
    | error e => exact ⟨e, rfl⟩
  have htag : parseTag (some raw) = .error e := by
    simp only [parseTag]
    rw [if_neg hraw, hsplit]
    simp only [List.headD_cons, List.tail_cons]
    rw [if_neg hname, he]
  refine ⟨"invalid tag format for field " ++ n ++ ": " ++ e, fun env => ?_⟩
  have hstep : fieldOutcome env n true (some raw) ty =
      .fail ("invalid tag format for field " ++ n ++ ": " ++ e) := by
    unfold fieldOutcome
    simp only [htag]
    rfl
  rw [parseStruct, hstep]

/-- Witness for C6: the annotation `NAME,frobnicate` fails for every
environment table. -/
theorem c6_unknown_option_error_witness :
    splitComma "NAME,frobnicate" = ["NAME", "frobnicate"] ∧
    ("NAME" : String) ≠ "" ∧
    ("frobnicate" : String) ≠ "optional" ∧
    hasPrefixL "frobnicate".data ("default=".data) = false ∧
    (∃ msg, ∀ env, EnvFull.parseStruct env
        [.leaf "F" true (some "NAME,frobnicate") .stringT (.str "")] =
      ([.leaf "F" true (some "NAME,frobnicate") .stringT (.str "")], some msg)) :=
  ⟨rfl, (by decide), (by decide), rfl,
    c6_unknown_option_error "F" "NAME,frobnicate" "NAME" ["frobnicate"] "frobnicate"
      .stringT (.str "") [] rfl (by decide) (by simp) (by decide) rfl⟩

open EnvFull in
/-- Claim C7: string-slice conversion splits the resolved string on
commas with elements used verbatim — `"a,b,c"` yields exactly
`["a","b","c"]` in order — and the empty resolved string yields the
empty (zero-length) sequence, never a one-element sequence holding the
empty string. -/
theorem c7_string_slice_split :
    (∀ s : String, parseSlice s .stringT =
      .ok (.slice .stringT (if s = "" then [] else (splitComma s).map Value.str))) ∧
    parseSlice "a,b,c" .stringT = .ok (.slice .stringT [.str "a", .str "b", .str "c"]) ∧
    parseSlice "" .stringT = .ok (.slice .stringT []) := by
  refine ⟨?_, rfl, rfl⟩
  intro s
  by_cases h : s = "" <;> simp [parseSlice, h]

/-- The `[]int` element loop of `env.go` fails with the message of the
first element `strconv.Atoi` rejects. -/
theorem atoiListFirstErr (els : List String) (el0 r : String)
    (hfind : els.find? intParseFails = some el0)
    (herr : parseInt64 el0 = .error r) :
    EnvGo.atoiList els = .error ("error parsing int slice : " ++ strconvErr "Atoi" el0 r) := by
  induction els with
  | nil => simp at hfind
  | cons el rest ih =>
    by_cases h : intParseFails el = true
    · rw [List.find?_cons_of_pos _ h] at hfind
      cases hfind
      rw [EnvGo.atoiList, herr]
    · rw [List.find?_cons_of_neg _ h] at hfind
      obtain ⟨k, hk⟩ : ∃ k, parseInt64 el = .ok k := by
        unfold intParseFails at h
        cases hpe : parseInt64 el with
        | ok k => exact ⟨k, rfl⟩
        | error r2 => rw [hpe] at h; simp at h
      rw [EnvGo.atoiList, hk, ih hfind]

open EnvGo in
/-- Claim C8: in `env.go`, binding an int-slice field from a resolved
string one of whose comma-separated elements fails integer parsing
aborts with an error whose message carries the offending element's
`strconv.Atoi` failure, and the field (and the rest of the record) is
left unchanged — no partial sequence is assigned. -/
theorem c8_int_slice_first_error (env : EnvTable) (n : String) (tg : Option String)
    (t : Tag) (v : Value) (rest : List StructField) (s el0 r : String)
    (hT : parseTag tg = .ok (some t))
    (hE : getenv env t.Env = s)
    (hs : s ≠ "")
    (hfind : (splitComma s).find? intParseFails = some el0)
    (herr : parseInt64 el0 = .error r) :
    ParseGo env (.leaf n true tg (.sliceT .intT) v :: rest) =
      (.leaf n true tg (.sliceT .intT) v :: rest,
       some ("error parsing slice field '" ++ n ++ "' : "
         ++ ("error parsing int slice : " ++ strconvErr "Atoi" el0 r))) := by
  have hsl : parseSlice s .intT =
      .error ("error parsing int slice : " ++ strconvErr "Atoi" el0 r) := by
    rw [parseSlice, atoiListFirstErr (splitComma s) el0 r hfind herr]
  have hstep : goFieldStep env n true tg (some (.sliceT .intT)) =
      .fail ("error parsing slice field '" ++ n ++ "' : "
        ++ ("error parsing int slice : " ++ strconvErr "Atoi" el0 r)) := by
    unfold goFieldStep
    simp only [hT, hE]
    simp [hs, hsl]
  simp only [ParseGo, fieldMeta]
  rw [hstep]

/-- Witness for C8: the input `"8080,invalid,9000"` fails with a message
naming `invalid`, leaving the slice field unchanged. -/
theorem c8_int_slice_first_error_witness :
    EnvGo.parseTag (some "PORTS") = .ok (some ⟨"PORTS", false, ""⟩) ∧
    getenv [("PORTS", "8080,invalid,9000")] "PORTS" = "8080,invalid,9000" ∧
    ("8080,invalid,9000" : String) ≠ "" ∧
    (splitComma "8080,invalid,9000").find? intParseFails = some "invalid" ∧
    parseInt64 "invalid" = .error "invalid syntax" ∧
    EnvGo.ParseGo [("PORTS", "8080,invalid,9000")]
        [.leaf "Ports" true (some "PORTS") (.sliceT .intT) (.slice .intT [])] =
      ([.leaf "Ports" true (some "PORTS") (.sliceT .intT) (.slice .intT [])],
       some ("error parsing slice field '" ++ "Ports" ++ "' : "
         ++ ("error parsing int slice : " ++ strconvErr "Atoi" "invalid" "invalid syntax"))) :=
  ⟨rfl, rfl, (by decide), rfl, rfl,
    c8_int_slice_first_error [("PORTS", "8080,invalid,9000")] "Ports" (some "PORTS")
      ⟨"PORTS", false, ""⟩ (.slice .intT []) [] "8080,invalid,9000" "invalid" "invalid syntax"
      rfl rfl (by decide) rfl rfl⟩

/-- Claim C9: both revisions of the binder are deterministic — two
invocations on equal records against equal environment tables return the
same error outcome and the same final record state.  (Both embeddings
are pure functions of the environment table and the record, so no hidden
state can influence the result.) -/
theorem c9_deterministic :
    (∀ (env env' : EnvTable) (v v' : EnvFull.Input), env = env' → v = v' →
      EnvFull.Parse env v = EnvFull.Parse env' v') ∧
    (∀ (env env' : EnvTable) (fs fs' : List StructField), env = env' → fs = fs' →
      EnvGo.ParseGo env fs = EnvGo.ParseGo env' fs') := by
  constructor
  · intro env env' v v' he hv
    rw [he, hv]
  · intro env env' fs fs' he hf
    rw [he, hf]

/-- Witness for C9: two identical invocations agree. -/
theorem c9_deterministic_witness :
    ([("A", "1")] : EnvTable) = [("A", "1")] ∧
    EnvFull.Input.ptrTo (.record [.leaf "X" true (some "A") .intT (.intV 0)]) =
      EnvFull.Input.ptrTo (.record [.leaf "X" true (some "A") .intT (.intV 0)]) ∧
    EnvFull.Parse [("A", "1")] (.ptrTo (.record [.leaf "X" true (some "A") .intT (.intV 0)])) =
      EnvFull.Parse [("A", "1")] (.ptrTo (.record [.leaf "X" true (some "A") .intT (.intV 0)])) :=
  ⟨rfl, rfl, c9_deterministic.1 _ _ _ _ rfl rfl⟩

open EnvFull in
/-- A successful run of the tag-option loop over valid option segments
with at most one default segment computes: optional iff some segment is
`optional`, and the default from the unique default segment if any. -/
theorem parseTagOptsCanon (l : List String) (o : Bool) (d : String)
    (hv : ∀ p ∈ l, validOptB p = true)
    (h1 : (l.filter isDefaultOpt).length ≤ 1) :
    parseTagOpts l o d = .ok (o || l.any (fun q => q == "optional"),
      match l.filter isDefaultOpt with
      | [] => d
      | q :: _ => String.mk (q.data.drop 8)) := by
  induction l generalizing o d with
  | nil => simp [parseTagOpts]
  | cons p rest ih =>
    have hp := hv p (List.mem_cons_self p rest)
    by_cases hopt : p = "optional"
    · subst hopt
      have hnd : ¬ isDefaultOpt "optional" = true := by decide
      rw [parseTagOpts, if_pos rfl,
        ih true d (fun q hq => hv q (List.mem_cons_of_mem _ hq))
          (by rwa [List.filter_cons_of_neg hnd] at h1)]
      rw [List.filter_cons_of_neg hnd]
      simp
    · have hvp : hasPrefixL p.data ("default=".data) = true ∧ 8 < p.data.length := by
        unfold validOptB at hp
        rcases Bool.or_eq_true_iff.mp hp with h | h
        · exact absurd (by simpa using h) hopt
        · exact ⟨(Bool.and_eq_true_iff.mp h).1, by
            have := (Bool.and_eq_true_iff.mp h).2
            exact of_decide_eq_true this⟩
      have hnd2 : p ≠ "default" := by
        intro hcontra
        rw [hcontra] at hvp
        exact absurd hvp.1 (by decide)
      have hdef : isDefaultOpt p = true := hvp.1
      have hlen : ¬ p.data.length ≤ 8 := not_le.mpr hvp.2
      have hfe : List.filter isDefaultOpt rest = [] := by
        rw [List.filter_cons_of_pos hdef] at h1
        have : (List.filter isDefaultOpt rest).length = 0 := by
          simpa using Nat.le_of_succ_le_succ h1
        exact List.length_eq_zero.mp this
      rw [parseTagOpts, if_neg hopt, if_neg hnd2, if_pos hvp.1, if_neg hlen,
        ih o (String.mk (p.data.drop 8)) (fun q hq => hv q (List.mem_cons_of_mem _ hq))
          (by rw [hfe]; simp)]
      rw [List.filter_cons_of_pos hdef, hfe]
      have hne : (p == "optional") = false := by
        rw [beq_eq_false_iff_ne]
        exact hopt
      simp [hne]

open EnvFull in
/-- Claim C10: annotation option order is immaterial — two raw tags with
the same (non-empty) name whose option segments are permutations of each
other, all valid (`optional` or `default=<literal>`), with at most one
default segment, parse to the same annotation value. -/
theorem c10_option_order_immaterial (raw raw' name : String) (opts opts' : List String)
    (hname : name ≠ "")
    (h1 : splitComma raw = name :: opts)
    (h2 : splitComma raw' = name :: opts')
    (hperm : opts.Perm opts')
    (hv : ∀ p ∈ opts, validOptB p = true)
    (hone : (opts.filter isDefaultOpt).length ≤ 1) :
    parseTag (some raw) = parseTag (some raw') := by
  have hv' : ∀ p ∈ opts', validOptB p = true := fun p hp => hv p (hperm.mem_iff.mpr hp)
  have hpf : (opts.filter isDefaultOpt).Perm (opts'.filter isDefaultOpt) :=
    hperm.filter isDefaultOpt
  have hone' : (opts'.filter isDefaultOpt).length ≤ 1 := by
    rw [← hpf.length_eq]
    exact hone
  have hfilt : opts.filter isDefaultOpt = opts'.filter isDefaultOpt := by
    cases hc : opts.filter isDefaultOpt with
    | nil =>
      rw [hc] at hpf
      exact (List.Perm.nil_eq hpf).symm ▸ rfl
    | cons q qs =>
      rw [hc] at hpf hone
      have hqs : qs = [] := by
        have : qs.length = 0 := by simpa using Nat.le_of_succ_le_succ hone
        exact List.length_eq_zero.mp this
      subst hqs
      exact (List.perm_singleton.mp hpf.symm).symm
  have hany : opts.any (fun q => q == "optional") = opts'.any (fun q => q == "optional") := by
    by_cases hm : "optional" ∈ opts
    · have hm' : "optional" ∈ opts' := hperm.mem_iff.mp hm
      rw [List.any_eq_true.mpr ⟨_, hm, by simp⟩, List.any_eq_true.mpr ⟨_, hm', by simp⟩]
    · have hm' : "optional" ∉ opts' := fun h => hm (hperm.mem_iff.mpr h)
      have e1 : opts.any (fun q => q == "optional") = false := by
        rw [Bool.eq_false_iff]
        intro h
        obtain ⟨q, hq, hbe⟩ := List.any_eq_true.mp h
        exact hm (by rwa [show q = "optional" from by simpa using hbe] at hq)
      have e2 : opts'.any (fun q => q == "optional") = false := by
        rw [Bool.eq_false_iff]
        intro h
        obtain ⟨q, hq, hbe⟩ := List.any_eq_true.mp h
        exact hm' (by rwa [show q = "optional" from by simpa using hbe] at hq)
      rw [e1, e2]
  have hraw : raw ≠ "" := by
    intro h
    subst h
    rw [show splitComma "" = [""] from rfl] at h1
    cases h1
    exact hname rfl
  have hraw' : raw' ≠ "" := by
    intro h
    subst h
    rw [show splitComma "" = [""] from rfl] at h2
    cases h2
    exact hname rfl
  rw [parseTag, parseTag, if_neg hraw, if_neg hraw', h1, h2]
  simp only [List.headD_cons, List.tail_cons]
  rw [if_neg hname, if_neg hname,
    parseTagOptsCanon opts false "" hv hone,
    parseTagOptsCanon opts' false "" hv' hone', hfilt, hany]

/-- Witness for C10: `NAME,optional,default=x` and
`NAME,default=x,optional` parse to the same annotation. -/
theorem c10_option_order_immaterial_witness :
    ("NAME" : String) ≠ "" ∧
    splitComma "NAME,optional,default=x" = ["NAME", "optional", "default=x"] ∧
    splitComma "NAME,default=x,optional" = ["NAME", "default=x", "optional"] ∧
    (["optional", "default=x"] : List String).Perm ["default=x", "optional"] ∧
    EnvFull.parseTag (some "NAME,optional,default=x") =
      EnvFull.parseTag (some "NAME,default=x,optional") :=
  ⟨(by decide), rfl, rfl, (by decide),
    c10_option_order_immaterial "NAME,optional,default=x" "NAME,default=x,optional" "NAME"
      ["optional", "default=x"] ["default=x", "optional"] (by decide) rfl rfl (by decide)
      (by decide) (by decide)⟩
